import Mathlib

/-!
Verification development for the CertSync frontend and its certificate
deployment orchestration boundary.  The JavaScript sources under
`frontend/src/js` are shallowly embedded: strings are Lean `String`s,
sequential reassignment becomes chained `let`s, fallible browser builtins
become `Option`-valued oracles, and the module-level mutable state of the
handler files becomes explicit state records.  Components that live in the
backend (orchestrator, lock table, delete endpoint) are modelled from the
specification and marked as such in their doc comments.
-/

namespace CertSync

/-! ## JavaScript string primitives

The handlers classify progress messages with `String.prototype.includes`
and consume event streams with `split`, `startsWith`, `substring` and
`trim`.  Each primitive is embedded as a total function on `String`
(equivalently on its list of characters). -/

/-- Boolean prefix test on character lists: `startsWithChars p s` is true
when `p` is a leading segment of `s`. -/
def startsWithChars : List Char → List Char → Bool
  | [], _ => true
  | _ :: _, [] => false
  | p :: ps, c :: cs => p == c && startsWithChars ps cs

/-- Boolean infix test on character lists: true when the pattern occurs
contiguously, at any position, in the second list. -/
def hasInfixChars (pat : List Char) : List Char → Bool
  | [] => startsWithChars pat []
  | c :: cs => startsWithChars pat (c :: cs) || hasInfixChars pat cs

/-- Embedding of JavaScript `s.includes(sub)`. -/
def jsIncludes (s sub : String) : Bool :=
  hasInfixChars sub.data s.data

/-- Embedding of JavaScript `s.startsWith(pre)`. -/
def jsStartsWith (s pre : String) : Bool :=
  startsWithChars pre.data s.data

/-- Embedding of JavaScript `s.substring(n)`: drop the first `n` characters. -/
def jsSubstring (s : String) (n : Nat) : String :=
  ⟨s.data.drop n⟩

/-- Embedding of JavaScript `s.trim()`: strip whitespace from both ends. -/
def jsTrim (s : String) : String :=
  ⟨((s.data.dropWhile Char.isWhitespace).reverse.dropWhile Char.isWhitespace).reverse⟩

/-- Embedding of JavaScript `s.split(sep)` for a one-character separator:
splitting always yields at least one (possibly empty) piece. -/
def splitChar (c : Char) : List Char → List (List Char)
  | [] => [[]]
  | d :: ds =>
    if d == c then [] :: splitChar c ds
    else
      match splitChar c ds with
      | [] => [[d]]
      | l :: ls => (d :: l) :: ls

/-- JavaScript `chunk.split(sep)` returned as a list of strings. -/
def jsSplit (s : String) (c : Char) : List String :=
  (splitChar c s.data).map (fun l => (⟨l⟩ : String))

/-! ## Severity classification of progress messages (claim C1)

Three consumers classify server progress lines by marker substrings:
the deploy button handler (`deploymentHandlers.js` lines 288-293), the
test-deployment handler (`deploymentHandlers.js` lines 182-184) and the
certificate request/renewal handler (`certificateHandlers.js` lines
143-146, identical logic at lines 296-299).  Each is embedded as the
sequence of reassignments of the source. -/

/-- Severity computed by the deploy button consumer
(`deploymentHandlers.js` lines 288-293): sequential `if` statements, a
later match overwriting the earlier value. -/
def deployBtnStatus (message : String) : String :=
  let status := "info"
  let status := if jsIncludes message "✅" || jsIncludes message "🎉" then "success" else status
  let status := if jsIncludes message "❌" || jsIncludes message "💔" then "error" else status
  let status := if jsIncludes message "⚠️" then "warning" else status
  let status :=
    if jsIncludes message "🚀" || jsIncludes message "🔐" || jsIncludes message "📤" ||
        jsIncludes message "📥" || jsIncludes message "🔧" || jsIncludes message "💾" ||
        jsIncludes message "🔍" then "running" else status
  status

/-- Severity computed by the test-deployment consumer
(`deploymentHandlers.js` lines 182-184): only the success and error
markers are checked. -/
def testDeploymentStatus (log : String) : String :=
  let status := "info"
  let status := if jsIncludes log "✅" then "success" else status
  let status := if jsIncludes log "❌" then "error" else status
  status

/-- Severity computed by the certificate request and renewal consumers
(`certificateHandlers.js` lines 143-146 and 296-299). -/
def certRequestStatus (log : String) : String :=
  let status := "info"
  let status := if jsIncludes log "✅" || jsIncludes log "🎉" then "success" else status
  let status := if jsIncludes log "❌" then "error" else status
  let status := if jsIncludes log "⚠️" || jsIncludes log "🔍 DEBUG" then "warning" else status
  status

/-- Severity as described by the specification sentence of claim C1,
written with the opposite (last-rule-first) orientation so that the rule
text "a later matching rule overrides an earlier one" is captured by an
ordinary nested conditional. -/
def claimSeverity (message : String) : String :=
  if jsIncludes message "🚀" || jsIncludes message "🔐" || jsIncludes message "📤" ||
      jsIncludes message "📥" || jsIncludes message "🔧" || jsIncludes message "💾" ||
      jsIncludes message "🔍" then "running"
  else if jsIncludes message "⚠️" then "warning"
  else if jsIncludes message "❌" || jsIncludes message "💔" then "error"
  else if jsIncludes message "✅" || jsIncludes message "🎉" then "success"
  else "info"

/-! ## GET event-stream chunk handling (claims C5, C6)

`createGetEventSource` (`utils.js` lines 32-101) reads the response body
chunk by chunk; lines 73-82 split each decoded chunk on newline and pass
each line that starts with `data:` — stripped of that prefix and trimmed —
to the `onmessage` callback. -/

/-- The per-chunk line loop of `createGetEventSource` (`utils.js` lines
73-82).  The returned list is the sequence of `data` values handed to
`onmessage`, in order of appearance in the chunk. -/
def processChunk (chunk : String) : List String :=
  (jsSplit chunk '\n').filterMap
    (fun line =>
      if jsStartsWith line "data:" then some (jsTrim (jsSubstring line 5)) else none)

/-! ## HTML escaping (claim C8)

`escapeHtml` (`utils.js` lines 2-10) rewrites its input through five
chained global single-character replacements. -/

/-- Embedding of JavaScript `str.replace(/c/g, r)` for a one-character
pattern: every occurrence of the character `c` is replaced by the string
`r`, all other characters are kept. -/
def jsReplaceAll (c : Char) (r : String) (s : String) : String :=
  ⟨s.data.flatMap (fun d => if d = c then r.data else [d])⟩

/-- Embedding of `escapeHtml` (`utils.js` lines 2-10): replace `&` first,
then `<`, `>`, `"` and the apostrophe (character 39), in source order. -/
def escapeHtml (s : String) : String :=
  jsReplaceAll (Char.ofNat 39) "&#039;"
    (jsReplaceAll '"' "&quot;"
      (jsReplaceAll '>' "&gt;"
        (jsReplaceAll '<' "&lt;"
          (jsReplaceAll '&' "&amp;" s))))

/-! ## JWT token decoding (claim C9)

`decodeToken` (`utils.js` lines 266-280) wraps its whole body in a
`try`/`catch` returning `null`.  The browser builtins `atob` and
`JSON.parse` are the only throwing operations reached; they are embedded
as `Option`-valued oracle parameters where `none` stands for a thrown
exception, so the `catch` branch becomes `Option` propagation. -/

/-- Embedding of `decodeToken` (`utils.js` lines 266-280): `none` input
covers the falsy (null/undefined/empty) tokens, the dot split must give
exactly three parts, the middle part is base64url-normalised (`-`→`+`,
`_`→`/`) before being handed to `atob` and then `JSON.parse`. -/
def decodeToken {α : Type} (atobFn : String → Option String)
    (jsonParse : String → Option α) (token : Option String) : Option α :=
  match token with
  | none => none
  | some t =>
    if t = "" then none
    else
      let parts := jsSplit t '.'
      if parts.length ≠ 3 then none
      else
        let payload := parts.getD 1 ""
        match atobFn (jsReplaceAll '_' "/" (jsReplaceAll '-' "+" payload)) with
        | none => none
        | some decoded => jsonParse decoded

/-! ## Deployment run progress stream and its test consumer (claim C2)

The consumer side is `deploymentHandlers.js` lines 164 and 180-226
together with `resetTestDeploymentButton` (lines 625-638).  The emitting
side (the orchestrator and its SSE endpoint) is backend code not present
under `src/` and is modelled from the specification. -/

/-- Exit paths of one deployment run, per specification §4.3. -/
inductive RunExit
  | success
  | failure
  | fault

/-- Modelled from the spec: the DeploymentOrchestrator run stream is
missing from `src/`; per §4.4 and §6 every run emits its ordinary
progress events followed by the distinguished terminal sentinel
`###CLOSE###`, exactly once and last, on every exit path. -/
def orchestratorStream (events : List String) (e : RunExit) : List String :=
  match e with
  | .success => events ++ ["###CLOSE###"]
  | .failure => events ++ ["###CLOSE###"]
  | .fault => events ++ ["###CLOSE###"]

/-- Observable state of the test-deployment consumer: the test button
label, the number of DELETE requests issued for the just-created
deployment record, and the number of times the sentinel branch performed
its cleanup (record deletion plus button reset). -/
structure TestConsumerState where
  buttonText : String
  deletesIssued : Nat
  closeCleanups : Nat
deriving DecidableEq

/-- State of the consumer right after the stream is opened
(`deploymentHandlers.js` line 164 set the button to `Testing...`). -/
def initTestConsumer : TestConsumerState :=
  { buttonText := "Testing...", deletesIssued := 0, closeCleanups := 0 }

/-- One `onmessage` delivery of the test-deployment consumer
(`deploymentHandlers.js` lines 180-226): a success message relabels the
button; a failure message relabels it and deletes the deployment record;
the `###CLOSE###` sentinel, when the button does not show success,
deletes the record once more and resets the button
(`resetTestDeploymentButton`, lines 625-638). -/
def testConsumerStep (s : TestConsumerState) (log : String) : TestConsumerState :=
  if jsIncludes log "successfully" && jsIncludes log "deployed" then
    { s with buttonText := "✅ Test Successful" }
  else if jsIncludes log "❌" && jsIncludes log "failed" then
    { s with buttonText := "❌ Test Failed", deletesIssued := s.deletesIssued + 1 }
  else if jsIncludes log "###CLOSE###" then
    if s.buttonText = "✅ Test Successful" then s
    else
      { buttonText := "Deploy Certificate",
        deletesIssued := s.deletesIssued + 1,
        closeCleanups := s.closeCleanups + 1 }
  else s

/-! ## Subscription close behaviour of the GET event source (claim C6) -/

/-- Client-side observable state of one GET event-stream subscription:
the flag of the `AbortController` created for this very subscription
(`utils.js` line 46), the data values delivered to `onmessage` so far,
and the number of `onerror` invocations. -/
structure GetSubscription where
  aborted : Bool
  messages : List String
  onerrorCalls : Nat
deriving DecidableEq

/-- State of a freshly created subscription. -/
def newGetSubscription : GetSubscription :=
  { aborted := false, messages := [], onerrorCalls := 0 }

/-- `close()` on the subscription object (`utils.js` lines 47-49) only
aborts the controller belonging to this subscription. -/
def closeSubscription (s : GetSubscription) : GetSubscription :=
  { s with aborted := true }

/-- One observable outcome of `reader.read()` in the push loop. -/
inductive ReadEvent
  | chunk (c : String)
  | failure (name : String)
  | done

/-- One iteration of the push loop (`utils.js` lines 68-92).  Once the
subscription is aborted the pending read rejects with an `AbortError`,
which the catch guard (lines 84-90) suppresses, so nothing further is
delivered; otherwise a chunk is split into its data lines and delivered,
and a rejection invokes `onerror` unless its name is `AbortError`. -/
def pushStep (s : GetSubscription) (r : ReadEvent) : GetSubscription :=
  if s.aborted then s
  else
    match r with
    | .chunk c => { s with messages := s.messages ++ processChunk c }
    | .failure n =>
      if n = "AbortError" then s else { s with onerrorCalls := s.onerrorCalls + 1 }
    | .done => s

/-- The client may hold several independent subscriptions (each call to
`createGetEventSource` builds a fresh object with its own controller);
the run log itself is kept by the orchestrator on the server.  The run
component is modelled from the spec (§4.4: subscriber disconnect does not
affect the run; only that subscriber is torn down). -/
structure ClientSystem where
  subs : Nat → GetSubscription
  runLog : List String

/-- Closing subscription `i`: invoke `close()` on that object only;
nothing is sent to the server and no other subscription is touched. -/
def sysClose (sys : ClientSystem) (i : Nat) : ClientSystem :=
  { sys with subs := fun j => if j = i then closeSubscription (sys.subs j) else sys.subs j }

/-! ## Module-level event-source slots (claims C7, C2 context)

`deploymentHandlers.js` line 623 declares `let currentEventSource = null`
at module scope; `certificateHandlers.js` line 6 declares the analogous
`currentCertEventSource`.  Handles are identified by numbers here. -/

/-- Module-scoped mutable state of `deploymentHandlers.js`: the single
`currentEventSource` slot, plus the list of handles on which `close()`
has been invoked, for observing the effect of a reset. -/
structure DeployModuleState where
  currentEventSource : Option Nat
  closedHandles : List Nat
deriving DecidableEq

/-- Module state when the page loads. -/
def initDeployModule : DeployModuleState :=
  { currentEventSource := none, closedHandles := [] }

/-- Starting the test-deployment stream (`deploymentHandlers.js` line
177) assigns the freshly created event source into the module slot,
whatever the slot held before. -/
def startTestDeploymentStream (st : DeployModuleState) (h : Nat) : DeployModuleState :=
  { st with currentEventSource := some h }

/-- `resetTestDeploymentButton` (`deploymentHandlers.js` lines 625-638):
closes whatever handle the module slot currently holds and clears the
slot. -/
def resetTestDeploymentButton (st : DeployModuleState) : DeployModuleState :=
  match st.currentEventSource with
  | some h => { currentEventSource := none, closedHandles := st.closedHandles ++ [h] }
  | none => st

/-! ## Persisted data model (claims C3, C4, C10)

Rows carry only the fields the verified operations read. -/

/-- A Certificate row (spec §3): the fields used by deletion and by the
certificates table rendering. -/
structure Certificate where
  id : Nat
  common_name : String
  dns_provider_account_id : Nat
deriving DecidableEq

/-- A Deployment row (spec §3): the fields used by the deletion guard. -/
structure Deployment where
  id : Nat
  certificate_id : Nat
  target_system_id : Nat
deriving DecidableEq

/-- The persisted store visible to the orchestrator boundary. -/
structure Store where
  certificates : List Certificate
  deployments : List Deployment
deriving DecidableEq

/-- Modelled from the spec: the DELETE certificate endpoint is backend
code not under `src/`.  Per spec §3 a Certificate may not be deleted
while referenced by a Deployment, and the repository test
`delete-certificate-test.js` (line 66) asserts the exact error message
used below; deletion succeeds only when no Deployment references the
Certificate. -/
def delete_certificate (db : Store) (certId : Nat) : Except String Store :=
  if db.deployments.any (fun d => d.certificate_id == certId) then
    .error "Cannot delete a certificate tied to an active deployment. Please delete the deployment and try again."
  else
    .ok { db with certificates := db.certificates.filter (fun c => c.id != certId) }

/-! ## Per-deployment run exclusivity (claim C4) -/

/-- Modelled from the spec: the orchestrator and its per-deployment lock
table are backend code not under `src/`.  The state records which
deployment ids hold their lock and how many device I/O operations have
been performed. -/
structure OrchestratorState where
  running : List Nat
  deviceIOCount : Nat
deriving DecidableEq

/-- Outcome of the lock acquisition at the head of RunDeployment. -/
inductive RunStartResult
  | started
  | alreadyRunning
deriving DecidableEq

/-- Modelled from the spec (§4.3, §5): `RunDeployment(id)` first
atomically checks-and-acquires the per-deployment lock; with the lock
already held the call returns AlreadyRunning immediately — not queued —
leaving the state untouched and performing no device I/O; an acquiring
call holds the lock and proceeds to the device work (counted here as one
device I/O burst). -/
def runDeploymentStart (st : OrchestratorState) (i : Nat) :
    RunStartResult × OrchestratorState :=
  if i ∈ st.running then (.alreadyRunning, st)
  else (.started, { running := i :: st.running, deviceIOCount := st.deviceIOCount + 1 })

/-! ## Table rendering order (claim C10)

`renderCertificatesTable` (`ui.js` lines 202-251) and
`renderDeploymentsTable` (`ui.js` lines 281-330) sort a spread copy of
their input with a two-level comparator before emitting rows. -/

/-- A DNS provider account row: the fields the certificates table
reads. -/
structure DnsProvider where
  id : Nat
  company : String
deriving DecidableEq

/-- The fields of a deployments-table row reached through optional
chaining; `none` stands for a missing object or field. -/
structure DeploymentView where
  target_system_company : Option String
  certificate_company : Option String
  certificate_common_name : Option String
deriving DecidableEq

/-- Embedding of JavaScript `s.toLowerCase()` (character-wise lowering;
locale-independent). -/
def jsToLower (s : String) : String := ⟨s.data.map Char.toLower⟩

/-- Code-point lexicographic comparison of character lists. -/
def cmpChars : List Char → List Char → Ordering
  | [], [] => .eq
  | [], _ :: _ => .lt
  | _ :: _, [] => .gt
  | a :: as, b :: bs =>
    if a < b then .lt
    else if b < a then .gt
    else cmpChars as bs

/-- JavaScript `a.localeCompare(b)` reduced to its sign; collation is
modelled as code-point lexicographic order. -/
def jsLocaleCompare (a b : String) : Ordering := cmpChars a.data b.data

/-- JavaScript truthiness fallback `x || y` for an optional string: a
missing value and the empty string both fall through to `y`. -/
def jsOrElse (x : Option String) (y : String) : String :=
  match x with
  | none => y
  | some s => if s = "" then y else s

/-- Company key of a certificate row (`ui.js` lines 214-217): the company
of the matching DNS provider account, `N/A` when there is none,
lowercased. -/
def certCompanyKey (dns : List DnsProvider) (c : Certificate) : String :=
  jsToLower (match dns.find? (fun p => p.id == c.dns_provider_account_id) with
             | some p => p.company
             | none => "N/A")

/-- The comparator of `renderCertificatesTable` (`ui.js` lines 213-227):
company first, common name on ties. -/
def certComparator (dns : List DnsProvider) (a b : Certificate) : Ordering :=
  match jsLocaleCompare (certCompanyKey dns a) (certCompanyKey dns b) with
  | .eq => jsLocaleCompare (jsToLower a.common_name) (jsToLower b.common_name)
  | o => o

/-- Company key of a deployments-table row (`ui.js` lines 292-293):
target-system company, else the certificate provider company, else
`N/A`, lowercased. -/
def deployCompanyKey (d : DeploymentView) : String :=
  jsToLower (jsOrElse d.target_system_company (jsOrElse d.certificate_company "N/A"))

/-- Certificate key of a deployments-table row (`ui.js` lines 298-299). -/
def deployCertKey (d : DeploymentView) : String :=
  jsToLower (jsOrElse d.certificate_common_name "N/A")

/-- The comparator of `renderDeploymentsTable` (`ui.js` lines 291-301). -/
def deployComparator (a b : DeploymentView) : Ordering :=
  match jsLocaleCompare (deployCompanyKey a) (deployCompanyKey b) with
  | .eq => jsLocaleCompare (deployCertKey a) (deployCertKey b)
  | o => o

/-- A comparator outcome that keeps the left element first (JavaScript
`comparator(a, b) <= 0`). -/
def nonGt : Ordering → Bool
  | .gt => false
  | _ => true

/-- Row order produced by `renderCertificatesTable` (`ui.js` lines
202-251): the table renders a stable sort (JavaScript `Array.sort`) of
the spread copy `[...certificates]`; the second component is the caller
array after the call, untouched because only the copy is sorted. -/
def renderCertificatesTable (certs : List Certificate) (dns : List DnsProvider) :
    List Certificate × List Certificate :=
  (certs.mergeSort (fun a b => nonGt (certComparator dns a b)), certs)

/-- Row order produced by `renderDeploymentsTable` (`ui.js` lines
281-330), with the same copy-then-sort structure. -/
def renderDeploymentsTable (ds : List DeploymentView) :
    List DeploymentView × List DeploymentView :=
  (ds.mergeSort (fun a b => nonGt (deployComparator a b)), ds)

/-! ### Claim C1 -/

/-- Helper: the deploy button classification, stated with the rules in
claim order (first assignment first), coincides with the last-rule-wins
nested conditional `claimSeverity`. -/
theorem deployBtnStatus_eq_claimSeverity (m : String) :
    deployBtnStatus m = claimSeverity m := by
  unfold deployBtnStatus claimSeverity
  cases h1 : jsIncludes m "✅" || jsIncludes m "🎉" <;>
    cases h2 : jsIncludes m "❌" || jsIncludes m "💔" <;>
      cases h3 : jsIncludes m "⚠️" <;>
        cases h4 : jsIncludes m "🚀" || jsIncludes m "🔐" || jsIncludes m "📤" ||
            jsIncludes m "📥" || jsIncludes m "🔧" || jsIncludes m "💾" ||
            jsIncludes m "🔍" <;>
          simp [h1, h2, h3, h4]

/-- C1 counterexample: the claim quantifies over every deployment
progress consumer, but the test-deployment consumer
(`deploymentHandlers.js` lines 182-184) — which reads the same
`/deploy/{id}/run-sse` stream as the deploy button — checks only the ✅
and ❌ markers.  A message carrying the ⚠️ marker is displayed with
severity `info` there, while the fixed sequence stated by the claim
yields `warning`. -/
theorem claim_C1_counterexample :
    testDeploymentStatus "⚠️ DNS propagation delayed" = "info" ∧
    claimSeverity "⚠️ DNS propagation delayed" = "warning" ∧
    testDeploymentStatus "⚠️ DNS propagation delayed" ≠
      claimSeverity "⚠️ DNS propagation delayed" := by
  refine ⟨by decide, by decide, by decide⟩

/-- C1 (amended): the deploy button consumer computes the displayed
severity exactly by the fixed sequence of the claim (severity starts as
info, then success on ✅/🎉, then error on ❌/💔, then warning on ⚠️,
then running on 🚀/🔐/📤/📥/🔧/💾/🔍, a later matching rule overriding an
earlier one — in particular a message with both ✅ and ❌ is classified
error); the other two progress consumers use smaller rule sets: the
test-deployment consumer only ✅→success then ❌→error, and the
certificate request/renewal consumer ✅/🎉→success, then ❌→error, then
⚠️ or the literal "🔍 DEBUG" →warning. -/
theorem claim_C1_severity_rules :
    (∀ m : String, deployBtnStatus m = claimSeverity m) ∧
    deployBtnStatus "Import ✅ done but activation ❌" = "error" ∧
    (∀ m : String, testDeploymentStatus m =
      (if jsIncludes m "❌" then "error"
       else if jsIncludes m "✅" then "success"
       else "info")) ∧
    (∀ m : String, certRequestStatus m =
      (if jsIncludes m "⚠️" || jsIncludes m "🔍 DEBUG" then "warning"
       else if jsIncludes m "❌" then "error"
       else if jsIncludes m "✅" || jsIncludes m "🎉" then "success"
       else "info")) := by
  refine ⟨deployBtnStatus_eq_claimSeverity, by decide, ?_, ?_⟩
  · intro m
    unfold testDeploymentStatus
    cases h1 : jsIncludes m "✅" <;> cases h2 : jsIncludes m "❌" <;> simp [h1, h2]
  · intro m
    unfold certRequestStatus
    cases h1 : jsIncludes m "✅" || jsIncludes m "🎉" <;>
      cases h2 : jsIncludes m "❌" <;>
        cases h3 : jsIncludes m "⚠️" || jsIncludes m "🔍 DEBUG" <;>
          simp [h1, h2, h3]

/-! ### Claim C5 -/

/-- Helper: a `filterMap` whose function is a guarded `some` is the same
as filtering by the guard and mapping the payload. -/
theorem filterMap_guard_eq_map_filter {α β : Type} (p : α → Bool) (g : α → β) :
    ∀ l : List α,
      l.filterMap (fun a => if p a then some (g a) else none) = (l.filter p).map g := by
  intro l
  induction l with
  | nil => rfl
  | cons a l ih =>
    by_cases h : p a <;> simp [List.filterMap_cons, List.filter_cons, h, ih]

/-- C5: for every received chunk the GET event-stream consumer delivers,
in line order, exactly one `onmessage` call per line beginning with
`data:` — carrying that line with the `data:` prefix removed and
whitespace trimmed — and no call for any other line. -/
theorem claim_C5_chunk_lines (chunk : String) :
    processChunk chunk =
      ((jsSplit chunk '\n').filter (fun line => jsStartsWith line "data:")).map
        (fun line => jsTrim (jsSubstring line 5)) ∧
    (processChunk chunk).length =
      (jsSplit chunk '\n').countP (fun line => jsStartsWith line "data:") := by
  have h := filterMap_guard_eq_map_filter
    (fun line => jsStartsWith line "data:")
    (fun line => jsTrim (jsSubstring line 5)) (jsSplit chunk '\n')
  refine ⟨h, ?_⟩
  rw [processChunk, h]
  simp [List.countP_eq_length_filter]

/-! ### Claim C8 -/

/-- Helper: any character of a replaced string either comes from the
replacement text or survives from the input and differs from the replaced
character. -/
theorem mem_jsReplaceAll {d : Char} (c : Char) (r : String) (s : String)
    (h : d ∈ (jsReplaceAll c r s).data) :
    d ∈ r.data ∨ (d ∈ s.data ∧ d ≠ c) := by
  unfold jsReplaceAll at h
  simp only [List.mem_flatMap] at h
  obtain ⟨a, ha, hd⟩ := h
  by_cases hac : a = c
  · subst hac
    simp only [if_pos rfl] at hd
    exact Or.inl hd
  · simp only [if_neg hac, List.mem_singleton] at hd
    subst hd
    exact Or.inr ⟨ha, hac⟩

/-- C8: for every input, `escapeHtml` produces a string containing none of
the characters `<`, `>`, `"` or the apostrophe, and each special
character (including `&`) is rewritten to its HTML entity. -/
theorem claim_C8_escapeHtml_no_delimiters (s : String) :
    ((escapeHtml s).data.all
      (fun c => !(c == '<' || c == '>' || c == '"' || c == Char.ofNat 39))) = true ∧
    escapeHtml "&" = "&amp;" ∧
    escapeHtml "<" = "&lt;" ∧
    escapeHtml ">" = "&gt;" ∧
    escapeHtml "\"" = "&quot;" ∧
    escapeHtml (String.singleton (Char.ofNat 39)) = "&#039;" := by
  refine ⟨?_, by decide, by decide, by decide, by decide, by decide⟩
  have safe39 : ∀ x ∈ ("&#039;" : String).data,
      (!(x == '<' || x == '>' || x == '"' || x == Char.ofNat 39)) = true := by decide
  have safeQuot : ∀ x ∈ ("&quot;" : String).data,
      (!(x == '<' || x == '>' || x == '"' || x == Char.ofNat 39)) = true := by decide
  have safeGt : ∀ x ∈ ("&gt;" : String).data,
      (!(x == '<' || x == '>' || x == '"' || x == Char.ofNat 39)) = true := by decide
  have safeLt : ∀ x ∈ ("&lt;" : String).data,
      (!(x == '<' || x == '>' || x == '"' || x == Char.ofNat 39)) = true := by decide
  rw [List.all_eq_true]
  intro c hc
  rcases mem_jsReplaceAll _ _ _ hc with h39 | ⟨hc1, hne39⟩
  · exact safe39 c h39
  rcases mem_jsReplaceAll _ _ _ hc1 with hq | ⟨hc2, hneq⟩
  · exact safeQuot c hq
  rcases mem_jsReplaceAll _ _ _ hc2 with hg | ⟨hc3, hneg⟩
  · exact safeGt c hg
  rcases mem_jsReplaceAll _ _ _ hc3 with hl | ⟨_, hnel⟩
  · exact safeLt c hl
  simp [hne39, hneq, hneg, hnel]

/-! ### Claim C9 -/

/-- C9: `decodeToken` is a total function; it yields `none` for a missing
or empty token and for any token that does not split into exactly three
dot-separated parts, and otherwise yields the result of base64-decoding
and JSON-parsing the middle part, where a failure of either oracle
(`none`) propagates to `none`. -/
theorem claim_C9_decodeToken_total {α : Type} (atobFn : String → Option String)
    (jsonParse : String → Option α) :
    decodeToken atobFn jsonParse none = none ∧
    decodeToken atobFn jsonParse (some "") = none ∧
    (∀ t : String, (jsSplit t '.').length ≠ 3 →
      decodeToken atobFn jsonParse (some t) = none) ∧
    (∀ t : String, t ≠ "" → (jsSplit t '.').length = 3 →
      decodeToken atobFn jsonParse (some t) =
        (atobFn (jsReplaceAll '_' "/"
          (jsReplaceAll '-' "+" ((jsSplit t '.').getD 1 "")))).bind jsonParse) := by
  refine ⟨rfl, rfl, ?_, ?_⟩
  · intro t hlen
    unfold decodeToken
    by_cases ht : t = ""
    · simp [ht]
    · simp [ht, hlen]
  · intro t ht hlen
    have hlen' : ¬(jsSplit t '.').length ≠ 3 := by simp [hlen]
    simp only [decodeToken, if_neg ht, if_neg hlen']
    cases h : atobFn (jsReplaceAll '_' "/"
        (jsReplaceAll '-' "+" ((jsSplit t '.').getD 1 ""))) <;> rfl

/-- Witness for C9 at concrete oracles and token: a well-formed three-part
token reaches both oracles, with the base64url characters of the middle
part normalised first. -/
theorem claim_C9_witness :
    decodeToken some (fun s => (some (s ++ "!") : Option String))
        (some "h.p-y_l.s") = some "p+y/l!" := by
  have h := (claim_C9_decodeToken_total some
      (fun s => (some (s ++ "!") : Option String))).2.2.2 "h.p-y_l.s"
      (by decide) (by decide)
  rw [h]
  decide

/-! ### Claim C2 -/

/-- Helper: while no delivered message is the sentinel or announces
success, the button never shows success and the sentinel cleanup counter
does not move. -/
theorem testConsumer_foldl_invariant (events : List String)
    (hNoSentinel : ∀ e ∈ events, jsIncludes e "###CLOSE###" = false)
    (hNoSuccess : ∀ e ∈ events,
      (jsIncludes e "successfully" && jsIncludes e "deployed") = false)
    (s : TestConsumerState) (hbtn : s.buttonText ≠ "✅ Test Successful") :
    (events.foldl testConsumerStep s).buttonText ≠ "✅ Test Successful" ∧
    (events.foldl testConsumerStep s).closeCleanups = s.closeCleanups := by
  induction events generalizing s with
  | nil => exact ⟨hbtn, rfl⟩
  | cons e es ih =>
    have he1 := hNoSentinel e (List.mem_cons_self e es)
    have he2 := hNoSuccess e (List.mem_cons_self e es)
    have hstep : (testConsumerStep s e).buttonText ≠ "✅ Test Successful" ∧
        (testConsumerStep s e).closeCleanups = s.closeCleanups := by
      unfold testConsumerStep
      cases h3 : jsIncludes e "❌" && jsIncludes e "failed" <;>
        simp [he1, he2, h3, hbtn]
    have := ih (fun x hx => hNoSentinel x (List.mem_cons_of_mem e hx))
      (fun x hx => hNoSuccess x (List.mem_cons_of_mem e hx))
      (testConsumerStep s e) hstep.1
    simp only [List.foldl_cons]
    exact ⟨this.1, this.2.trans hstep.2⟩

/-- C2: for every run, the progress stream carries exactly one terminal
sentinel, as its last event, on every exit path; and a consumer of a
non-successful run performs the sentinel-triggered cleanup (deleting the
just-created deployment record and resetting the button) exactly once. -/
theorem claim_C2_single_sentinel_single_cleanup
    (events : List String) (e : RunExit)
    (hNoSentinel : ∀ x ∈ events, jsIncludes x "###CLOSE###" = false)
    (hNoSuccess : ∀ x ∈ events,
      (jsIncludes x "successfully" && jsIncludes x "deployed") = false) :
    (orchestratorStream events e).countP (fun m => jsIncludes m "###CLOSE###") = 1 ∧
    (orchestratorStream events e).getLast? = some "###CLOSE###" ∧
    ((orchestratorStream events e).foldl testConsumerStep initTestConsumer).closeCleanups
      = 1 := by
  have hstream : orchestratorStream events e = events ++ ["###CLOSE###"] := by
    cases e <;> rfl
  rw [hstream]
  refine ⟨?_, ?_, ?_⟩
  · rw [List.countP_append]
    have h0 : events.countP (fun m => jsIncludes m "###CLOSE###") = 0 := by
      rw [List.countP_eq_zero]
      intro x hx
      simp [hNoSentinel x hx]
    rw [h0]
    decide
  · exact List.getLast?_concat events
  · rw [List.foldl_append]
    have hinv := testConsumer_foldl_invariant events hNoSentinel hNoSuccess
      initTestConsumer (by decide)
    set s' := events.foldl testConsumerStep initTestConsumer with hs'
    have hbtn := hinv.1
    have hclean : s'.closeCleanups = 0 := hinv.2
    simp only [List.foldl_cons, List.foldl_nil]
    unfold testConsumerStep
    rw [if_neg (by decide), if_neg (by decide), if_pos (by decide), if_neg hbtn]
    simp [hclean]

/-- Witness for C2 at a concrete failed run: one progress event, one
failure event, failure exit path. -/
theorem claim_C2_witness :
    ((orchestratorStream ["🚀 Starting deployment", "❌ Deployment failed"]
        RunExit.failure).countP (fun m => jsIncludes m "###CLOSE###") = 1) ∧
    (orchestratorStream ["🚀 Starting deployment", "❌ Deployment failed"]
        RunExit.failure).getLast? = some "###CLOSE###" ∧
    ((orchestratorStream ["🚀 Starting deployment", "❌ Deployment failed"]
        RunExit.failure).foldl testConsumerStep initTestConsumer).closeCleanups = 1 :=
  claim_C2_single_sentinel_single_cleanup
    ["🚀 Starting deployment", "❌ Deployment failed"] RunExit.failure
    (by decide) (by decide)

/-! ### Claim C6 -/

/-- C6: closing a GET-stream subscription aborts only its own fetch: the
server-side run log is untouched, every other subscription is unchanged,
the closed subscription is marked aborted, and from then on no read
outcome — including the AbortError rejection caused by the abort —
delivers a message or invokes `onerror` for it. -/
theorem claim_C6_close_is_local (sys : ClientSystem) (i j : Nat) (hne : j ≠ i) :
    (sysClose sys i).runLog = sys.runLog ∧
    (sysClose sys i).subs j = sys.subs j ∧
    ((sysClose sys i).subs i).aborted = true ∧
    (∀ r : ReadEvent, pushStep ((sysClose sys i).subs i) r = (sysClose sys i).subs i) := by
  refine ⟨rfl, ?_, ?_, ?_⟩
  · simp [sysClose, hne]
  · simp [sysClose, closeSubscription]
  · intro r
    have habort : ((sysClose sys i).subs i).aborted = true := by
      simp [sysClose, closeSubscription]
    unfold pushStep
    rw [if_pos habort]

/-- Witness for C6 on a concrete two-subscription system. -/
theorem claim_C6_witness :
    (sysClose ⟨fun _ => newGetSubscription, ["🚀 step one"]⟩ 0).runLog = ["🚀 step one"] ∧
    (sysClose ⟨fun _ => newGetSubscription, ["🚀 step one"]⟩ 0).subs 1 =
      newGetSubscription ∧
    ((sysClose ⟨fun _ => newGetSubscription, ["🚀 step one"]⟩ 0).subs 0).aborted = true ∧
    (∀ r : ReadEvent,
      pushStep ((sysClose ⟨fun _ => newGetSubscription, ["🚀 step one"]⟩ 0).subs 0) r =
        (sysClose ⟨fun _ => newGetSubscription, ["🚀 step one"]⟩ 0).subs 0) :=
  claim_C6_close_is_local ⟨fun _ => newGetSubscription, ["🚀 step one"]⟩ 0 1
    (by decide)

/-! ### Claim C7 -/

/-- C7 counterexample: the consuming layer keeps a single module-scoped
mutable slot.  Starting a second test-deployment run overwrites the slot
that held the handle of the first run, and a subsequent reset closes the
handle of the second run — refuting the claim that handles are scoped per
run and that starting or resetting the stream of one run never overwrites
or closes the handle of another run. -/
theorem claim_C7_counterexample :
    (startTestDeploymentStream (startTestDeploymentStream initDeployModule 1) 2).currentEventSource
      = some 2 ∧
    (startTestDeploymentStream (startTestDeploymentStream initDeployModule 1) 2).currentEventSource
      ≠ some 1 ∧
    (resetTestDeploymentButton
        (startTestDeploymentStream
          (startTestDeploymentStream initDeployModule 1) 2)).closedHandles = [2] := by
  refine ⟨rfl, by decide, rfl⟩

/-- C7 (amended): the client-side progress-stream state is one
module-scoped mutable slot, not a per-run handle: starting a stream
stores its handle in the shared slot regardless of the previous content,
and a reset closes exactly whichever handle the slot currently holds —
possibly one belonging to a different run — then clears the slot. -/
theorem claim_C7_single_slot (st : DeployModuleState) (h : Nat) :
    (startTestDeploymentStream st h).currentEventSource = some h ∧
    (∀ st' : DeployModuleState, ∀ h' : Nat, st'.currentEventSource = some h' →
      (resetTestDeploymentButton st').closedHandles = st'.closedHandles ++ [h'] ∧
      (resetTestDeploymentButton st').currentEventSource = none) ∧
    (∀ st' : DeployModuleState, st'.currentEventSource = none →
      resetTestDeploymentButton st' = st') := by
  refine ⟨rfl, ?_, ?_⟩
  · intro st' h' hslot
    unfold resetTestDeploymentButton
    rw [hslot]
    exact ⟨rfl, rfl⟩
  · intro st' hslot
    unfold resetTestDeploymentButton
    rw [hslot]

/-- Witness for C7 (amended) on a concrete slot holding handle 5. -/
theorem claim_C7_witness :
    (resetTestDeploymentButton ⟨some 5, [3]⟩).closedHandles = [3, 5] ∧
    (resetTestDeploymentButton ⟨some 5, [3]⟩).currentEventSource = none :=
  (claim_C7_single_slot ⟨some 5, [3]⟩ 5).2.1 ⟨some 5, [3]⟩ 5 rfl

/-! ### Claim C3 -/

/-- C3: deleting a Certificate referenced by at least one Deployment
fails with the exact operator-facing error message and removes nothing;
with no referencing Deployment the deletion succeeds, removes exactly the
rows with that id and keeps every other certificate and all
deployments. -/
theorem claim_C3_delete_certificate_guard (db : Store) (certId : Nat) :
    ((∃ d ∈ db.deployments, d.certificate_id = certId) →
      delete_certificate db certId =
        .error "Cannot delete a certificate tied to an active deployment. Please delete the deployment and try again.") ∧
    ((∀ d ∈ db.deployments, d.certificate_id ≠ certId) →
      ∃ db' : Store, delete_certificate db certId = .ok db' ∧
        db'.deployments = db.deployments ∧
        (∀ c ∈ db'.certificates, c.id ≠ certId) ∧
        (∀ c ∈ db.certificates, c.id ≠ certId → c ∈ db'.certificates)) := by
  constructor
  · intro href
    have hany : db.deployments.any (fun d => d.certificate_id == certId) = true := by
      rw [List.any_eq_true]
      obtain ⟨d, hd, hid⟩ := href
      exact ⟨d, hd, by simp [hid]⟩
    unfold delete_certificate
    rw [if_pos hany]
  · intro hfree
    have hany : db.deployments.any (fun d => d.certificate_id == certId) = false := by
      rw [List.any_eq_false]
      intro d hd
      simp [hfree d hd]
    refine ⟨{ db with certificates := db.certificates.filter (fun c => c.id != certId) },
      ?_, rfl, ?_, ?_⟩
    · unfold delete_certificate
      rw [if_neg (by simp [hany])]
    · intro c hc
      have := (List.mem_filter.mp hc).2
      simpa using this
    · intro c hc hne
      exact List.mem_filter.mpr ⟨hc, by simpa using hne⟩

/-- Witness for C3: a store whose single certificate is referenced by a
deployment refuses the deletion with the asserted message. -/
theorem claim_C3_witness :
    delete_certificate
        { certificates := [{ id := 1, common_name := "vpn.example.com",
                             dns_provider_account_id := 4 }],
          deployments := [{ id := 9, certificate_id := 1, target_system_id := 2 }] } 1 =
      .error "Cannot delete a certificate tied to an active deployment. Please delete the deployment and try again." :=
  (claim_C3_delete_certificate_guard _ 1).1
    ⟨{ id := 9, certificate_id := 1, target_system_id := 2 }, by decide, rfl⟩

/-! ### Claim C4 -/

/-- C4: with the lock of deployment `i` free, the first of two
`RunDeployment(i)` calls acquires it and runs; the second — serialized
after the first by the atomic check-and-acquire — observes AlreadyRunning
immediately, changes nothing, performs no device I/O, and exactly one run
of `i` is executing. -/
theorem claim_C4_second_call_rejected (st : OrchestratorState) (i : Nat)
    (hfree : i ∉ st.running) :
    (runDeploymentStart st i).1 = .started ∧
    (runDeploymentStart (runDeploymentStart st i).2 i).1 = .alreadyRunning ∧
    (runDeploymentStart (runDeploymentStart st i).2 i).2 = (runDeploymentStart st i).2 ∧
    (runDeploymentStart (runDeploymentStart st i).2 i).2.deviceIOCount
      = st.deviceIOCount + 1 ∧
    (runDeploymentStart (runDeploymentStart st i).2 i).2.running.count i = 1 := by
  have h1 : runDeploymentStart st i =
      (.started, { running := i :: st.running, deviceIOCount := st.deviceIOCount + 1 }) := by
    unfold runDeploymentStart
    rw [if_neg hfree]
  have h2 : runDeploymentStart
      ({ running := i :: st.running, deviceIOCount := st.deviceIOCount + 1 } :
        OrchestratorState) i =
      (.alreadyRunning,
        { running := i :: st.running, deviceIOCount := st.deviceIOCount + 1 }) := by
    unfold runDeploymentStart
    rw [if_pos (List.mem_cons_self i st.running)]
  rw [h1]
  simp only [h2]
  refine ⟨trivial, trivial, trivial, trivial, ?_⟩
  have hcount : st.running.count i = 0 := List.count_eq_zero.mpr hfree
  simp [List.count_cons, hcount]

/-- Witness for C4 starting from the idle orchestrator and deployment
id 7. -/
theorem claim_C4_witness :
    (runDeploymentStart { running := [], deviceIOCount := 0 } 7).1 = .started ∧
    (runDeploymentStart (runDeploymentStart { running := [], deviceIOCount := 0 } 7).2 7).1
      = .alreadyRunning ∧
    (runDeploymentStart (runDeploymentStart { running := [], deviceIOCount := 0 } 7).2 7).2
      = (runDeploymentStart { running := [], deviceIOCount := 0 } 7).2 ∧
    (runDeploymentStart
        (runDeploymentStart { running := [], deviceIOCount := 0 } 7).2 7).2.deviceIOCount
      = 1 ∧
    (runDeploymentStart
        (runDeploymentStart { running := [], deviceIOCount := 0 } 7).2 7).2.running.count 7
      = 1 :=
  claim_C4_second_call_rejected { running := [], deviceIOCount := 0 } 7 (by decide)

/-! ### Claim C10 -/

/-- Helper: lexicographic comparison returns `eq` exactly on equal
lists. -/
theorem cmpChars_eq_iff : ∀ (as bs : List Char), cmpChars as bs = Ordering.eq ↔ as = bs := by
  intro as
  induction as with
  | nil => intro bs; cases bs <;> simp [cmpChars]
  | cons a as ih =>
    intro bs
    cases bs with
    | nil => simp [cmpChars]
    | cons b bs =>
      simp only [cmpChars]
      rcases lt_trichotomy a b with h | h | h
      · rw [if_pos h]
        constructor
        · intro hx; exact absurd hx (by decide)
        · intro hx
          injection hx with h1 h2
          exact absurd h1 (ne_of_lt h)
      · subst h
        rw [if_neg (lt_irrefl a), if_neg (lt_irrefl a)]
        simp [ih bs]
      · rw [if_neg (asymm h), if_pos h]
        constructor
        · intro hx; exact absurd hx (by decide)
        · intro hx
          injection hx with h1 h2
          exact absurd h1.symm (ne_of_lt h)

/-- Helper: lexicographic comparison is antisymmetric in its verdicts. -/
theorem cmpChars_gt_iff : ∀ (as bs : List Char),
    cmpChars as bs = Ordering.gt ↔ cmpChars bs as = Ordering.lt := by
  intro as
  induction as with
  | nil => intro bs; cases bs <;> simp [cmpChars]
  | cons a as ih =>
    intro bs
    cases bs with
    | nil => simp [cmpChars]
    | cons b bs =>
      simp only [cmpChars]
      rcases lt_trichotomy a b with h | h | h
      · rw [if_pos h, if_neg (asymm h), if_pos h]
        constructor <;> (intro hx; exact absurd hx (by decide))
      · subst h
        rw [if_neg (lt_irrefl a), if_neg (lt_irrefl a), if_neg (lt_irrefl a),
          if_neg (lt_irrefl a)]
        exact ih bs
      · rw [if_neg (asymm h), if_pos h, if_pos h]
        constructor <;> (intro _; rfl)

/-- Helper: strict lexicographic order is transitive. -/
theorem cmpChars_lt_trans : ∀ (as bs cs : List Char),
    cmpChars as bs = Ordering.lt → cmpChars bs cs = Ordering.lt →
    cmpChars as cs = Ordering.lt := by
  intro as
  induction as with
  | nil =>
    intro bs cs h1 h2
    cases cs with
    | nil =>
      cases bs with
      | nil => exact h1
      | cons b bs => simp [cmpChars] at h2
    | cons c cs => simp [cmpChars]
  | cons a as ih =>
    intro bs cs h1 h2
    cases bs with
    | nil => simp [cmpChars] at h1
    | cons b bs =>
      cases cs with
      | nil => simp [cmpChars] at h2
      | cons c cs =>
        simp only [cmpChars] at h1 h2 ⊢
        rcases lt_trichotomy a b with hab | hab | hab
        · rcases lt_trichotomy b c with hbc | hbc | hbc
          · rw [if_pos (lt_trans hab hbc)]
          · subst hbc; rw [if_pos hab]
          · rw [if_neg (asymm hbc), if_pos hbc] at h2
            exact absurd h2 (by decide)
        · subst hab
          rcases lt_trichotomy a c with hac | hac | hac
          · rw [if_pos hac]
          · subst hac
            rw [if_neg (lt_irrefl a), if_neg (lt_irrefl a)] at h1 h2 ⊢
            exact ih bs cs h1 h2
          · rw [if_neg (asymm hac), if_pos hac] at h2
            exact absurd h2 (by decide)
        · rw [if_neg (asymm hab), if_pos hab] at h1
          exact absurd h1 (by decide)

/-- Helper: totality of the keep-first relation on character lists. -/
theorem nonGt_cmpChars_total (as bs : List Char) :
    (nonGt (cmpChars as bs) || nonGt (cmpChars bs as)) = true := by
  cases h : cmpChars as bs with
  | lt => simp [nonGt]
  | eq => simp [nonGt]
  | gt =>
    have hba := (cmpChars_gt_iff as bs).mp h
    simp [hba, nonGt]

/-- Helper: transitivity of the keep-first relation on character
lists. -/
theorem nonGt_cmpChars_trans (as bs cs : List Char)
    (h1 : nonGt (cmpChars as bs) = true) (h2 : nonGt (cmpChars bs cs) = true) :
    nonGt (cmpChars as cs) = true := by
  cases hab : cmpChars as bs with
  | gt => rw [hab] at h1; exact absurd h1 (by decide)
  | eq =>
    have he : as = bs := (cmpChars_eq_iff as bs).mp hab
    subst he
    exact h2
  | lt =>
    cases hbc : cmpChars bs cs with
    | gt => rw [hbc] at h2; exact absurd h2 (by decide)
    | eq =>
      have he : bs = cs := (cmpChars_eq_iff bs cs).mp hbc
      subst he
      rw [hab]
      rfl
    | lt =>
      rw [cmpChars_lt_trans as bs cs hab hbc]
      rfl

/-- Helper: any comparator built as company key first, tie key second —
the shape of both table comparators — induces a transitive and total
keep-first relation whose verdicts imply the two-level ascending order of
the claim. -/
theorem keyed_comparator_spec {α : Type} (k1 k2 : α → String)
    (cmp : α → α → Ordering)
    (hcmp : ∀ a b, cmp a b =
      match cmpChars (k1 a).data (k1 b).data with
      | Ordering.eq => cmpChars (k2 a).data (k2 b).data
      | o => o) :
    (∀ a b c, nonGt (cmp a b) = true → nonGt (cmp b c) = true →
      nonGt (cmp a c) = true) ∧
    (∀ a b, (nonGt (cmp a b) || nonGt (cmp b a)) = true) ∧
    (∀ a b, nonGt (cmp a b) = true →
      cmpChars (k1 a).data (k1 b).data = Ordering.lt ∨
      (cmpChars (k1 a).data (k1 b).data = Ordering.eq ∧
        cmpChars (k2 a).data (k2 b).data ≠ Ordering.gt)) := by
  refine ⟨?_, ?_, ?_⟩
  · intro a b c h1 h2
    rw [hcmp] at h1 h2
    rw [hcmp]
    cases hab : cmpChars (k1 a).data (k1 b).data with
    | gt => rw [hab] at h1; simp [nonGt] at h1
    | eq =>
      have he : (k1 a).data = (k1 b).data := (cmpChars_eq_iff _ _).mp hab
      rw [hab] at h1
      rw [he]
      cases hbc : cmpChars (k1 b).data (k1 c).data with
      | gt => rw [hbc] at h2; simp [nonGt] at h2
      | lt => rfl
      | eq =>
        rw [hbc] at h2
        exact nonGt_cmpChars_trans _ _ _ h1 h2
    | lt =>
      cases hbc : cmpChars (k1 b).data (k1 c).data with
      | gt => rw [hbc] at h2; simp [nonGt] at h2
      | eq =>
        have he : (k1 b).data = (k1 c).data := (cmpChars_eq_iff _ _).mp hbc
        rw [← he, hab]
        rfl
      | lt =>
        rw [cmpChars_lt_trans _ _ _ hab hbc]
        rfl
  · intro a b
    cases hab : cmpChars (k1 a).data (k1 b).data with
    | lt =>
      rw [hcmp, hcmp, hab]
      simp [nonGt]
    | gt =>
      have hba := (cmpChars_gt_iff _ _).mp hab
      rw [hcmp, hcmp, hab, hba]
      simp [nonGt]
    | eq =>
      have he : (k1 a).data = (k1 b).data := (cmpChars_eq_iff _ _).mp hab
      have hba : cmpChars (k1 b).data (k1 a).data = Ordering.eq := by
        rw [he, (cmpChars_eq_iff _ _)]
      rw [hcmp, hcmp, hab, hba]
      exact nonGt_cmpChars_total _ _
  · intro a b h
    rw [hcmp] at h
    cases hab : cmpChars (k1 a).data (k1 b).data with
    | lt => exact Or.inl rfl
    | gt => rw [hab] at h; simp [nonGt] at h
    | eq =>
      rw [hab] at h
      refine Or.inr ⟨rfl, ?_⟩
      intro hgt
      rw [hgt] at h
      simp [nonGt] at h

/-- C10: both tables render their rows as a permutation of the input
sorted ascending by lowercased company key, with ties broken by the
lowercased certificate common name, and both leave the caller input
array untouched (only the spread copy is sorted). -/
theorem claim_C10_tables_sorted_copy (certs : List Certificate)
    (dns : List DnsProvider) (ds : List DeploymentView) :
    (renderCertificatesTable certs dns).1.Perm certs ∧
    (renderCertificatesTable certs dns).2 = certs ∧
    List.Pairwise (fun a b =>
      jsLocaleCompare (certCompanyKey dns a) (certCompanyKey dns b) = Ordering.lt ∨
      (jsLocaleCompare (certCompanyKey dns a) (certCompanyKey dns b) = Ordering.eq ∧
        jsLocaleCompare (jsToLower a.common_name) (jsToLower b.common_name) ≠ Ordering.gt))
      (renderCertificatesTable certs dns).1 ∧
    (renderDeploymentsTable ds).1.Perm ds ∧
    (renderDeploymentsTable ds).2 = ds ∧
    List.Pairwise (fun a b =>
      jsLocaleCompare (deployCompanyKey a) (deployCompanyKey b) = Ordering.lt ∨
      (jsLocaleCompare (deployCompanyKey a) (deployCompanyKey b) = Ordering.eq ∧
        jsLocaleCompare (deployCertKey a) (deployCertKey b) ≠ Ordering.gt))
      (renderDeploymentsTable ds).1 := by
  obtain ⟨htransC, htotC, himpC⟩ := keyed_comparator_spec (certCompanyKey dns)
    (fun c => jsToLower c.common_name) (certComparator dns) (fun a b => rfl)
  obtain ⟨htransD, htotD, himpD⟩ := keyed_comparator_spec deployCompanyKey
    deployCertKey deployComparator (fun a b => rfl)
  refine ⟨List.mergeSort_perm certs _, rfl, ?_, List.mergeSort_perm ds _, rfl, ?_⟩
  · have hp : (certs.mergeSort (fun a b => nonGt (certComparator dns a b))).Pairwise
        (fun a b => nonGt (certComparator dns a b)) :=
      List.sorted_mergeSort (fun a b c h1 h2 => htransC a b c h1 h2)
        (fun a b => htotC a b) certs
    exact hp.imp (fun h => himpC _ _ h)
  · have hp : (ds.mergeSort (fun a b => nonGt (deployComparator a b))).Pairwise
        (fun a b => nonGt (deployComparator a b)) :=
      List.sorted_mergeSort (fun a b c h1 h2 => htransD a b c h1 h2)
        (fun a b => htotD a b) ds
    exact hp.imp (fun h => himpD _ _ h)

end CertSync
